import Mathlib

/-!
A shallow embedding of the typed opaque-handle (pointer) registry implemented in
src/include/tclhPointerImpl.c of the tclh repository, together with proofs of
the behavioural properties stated in the specification.

Modelling conventions, mirroring the C source:
* A pointer (handle) is modelled as a `Nat`; the null pointer is `0`.
* A type tag (`Tclh_PointerTypeTag`, a `Tcl_Obj *` that may be `NULL`) is
  modelled as `Option String`; `none` is the absent/untyped tag.  The C code
  compares tags by text (`strcmp` of `Tcl_GetString`), with pointer identity
  only as a shortcut, so collapsing tag objects to their string value is sound.
* The registry's two hash tables (`pointers`, keyed by the pointer value, and
  `castables`, keyed by the tag string) are modelled as functions into `Option`.
* Each C function that can mutate the registry is modelled as a function
  returning the updated registry paired with an `Except` outcome; on every
  error path the C code returns before mutating, so the model returns the
  input registry unchanged there.
* The distinct error reporters of the C code are mapped to an error vocabulary:
  `Tclh_ErrorInvalidValue` to `invalidValue`, `PointerNotRegisteredError`
  (NOT_FOUND) to `notFound`, `Tclh_ErrorWrongType`/`PointerTypeError` to
  `typeMismatch`, `Tclh_ErrorExists` to `conflict`, and the generic POINTER
  cast error to `generic`.  The "Tclh context not initialized" paths are not
  modelled: the model always carries an initialized registry.
-/

/-- Error vocabulary of the registry operations (see module comment). -/
inductive TclhError where
  | invalidValue
  | notFound
  | typeMismatch
  | conflict
  | generic
deriving DecidableEq, Repr

/-- `TclhPointerRecord` of tclhPointerImpl.c: the per-pointer record holding
the tag and the reference count (`nRefs = -1` marks an uncounted, i.e.
exclusive, registration). -/
structure TclhPointerRecord where
  tagObj : Option String
  nRefs : Int
deriving DecidableEq, Repr

/-- `TclhPointerRegistry` of tclhPointerImpl.c: the table of registered
pointers and the table of permitted casts (subtag to supertag edges). -/
structure TclhPointerRegistry where
  pointers : Nat → Option TclhPointerRecord
  castables : String → Option String

/-- The freshly initialized registry of `Tclh_PointerLibInit`: both hash
tables empty. -/
def emptyRegistry : TclhPointerRegistry :=
  { pointers := fun _ => none, castables := fun _ => none }

/-- `PointerTypeSame` of tclhPointerImpl.c: true when the expected tag is
absent, or both tags are present with equal text. -/
def PointerTypeSame (pointerTag expectedTag : Option String) : Bool :=
  match expectedTag with
  | none => true
  | some es =>
    match pointerTag with
    | none => false
    | some ts => ts == es

/-- The ancestor-walking loop of `PointerTypeCompatible`: up to `fuel` hash
lookups in the castables table, testing `PointerTypeSame` after each hop. -/
def PointerTypeCompatibleLoop (castables : String → Option String)
    (expected : Option String) : String → Nat → Bool
  | _, 0 => false
  | t, fuel + 1 =>
    match castables t with
    | none => false
    | some super =>
      if PointerTypeSame (some super) expected then true
      else PointerTypeCompatibleLoop castables expected super fuel

/-- `PointerTypeCompatible` of tclhPointerImpl.c: equal (or expected absent)
tags are compatible; otherwise walk at most 10 supertag edges from `tag`
looking for `expected`. -/
def PointerTypeCompatible (castables : String → Option String)
    (tag expected : Option String) : Bool :=
  if PointerTypeSame tag expected then true
  else
    match tag with
    | none => false
    | some t => PointerTypeCompatibleLoop castables expected t 10

/-- `TclhPointerRegister` of tclhPointerImpl.c: register `pointer` with `tag`,
either counted or uncounted (exclusive).  On success the C code also wraps a
fresh `(pointer, tag)` `Tcl_Obj`, returned here as the success value. -/
def TclhPointerRegister (r : TclhPointerRegistry) (pointer : Nat)
    (tag : Option String) (counted : Bool) :
    TclhPointerRegistry × Except TclhError (Nat × Option String) :=
  if pointer = 0 then (r, .error .invalidValue)
  else
    match r.pointers pointer with
    | none =>
      ({ r with
          pointers := fun p =>
            if p = pointer then some ⟨tag, if counted then 1 else -1⟩
            else r.pointers p },
       .ok (pointer, tag))
    | some rec =>
      if PointerTypeSame rec.tagObj tag then
        if counted then
          if rec.nRefs < 0 then (r, .error .conflict)
          else
            ({ r with
                pointers := fun p =>
                  if p = pointer then some ⟨rec.tagObj, rec.nRefs + 1⟩
                  else r.pointers p },
             .ok (pointer, tag))
        else
          if 0 ≤ rec.nRefs then (r, .error .conflict)
          else (r, .ok (pointer, tag))
      else (r, .error .typeMismatch)

/-- `Tclh_PointerRegister`: uncounted (exclusive) registration. -/
def Tclh_PointerRegister (r : TclhPointerRegistry) (pointer : Nat)
    (tag : Option String) :
    TclhPointerRegistry × Except TclhError (Nat × Option String) :=
  TclhPointerRegister r pointer tag false

/-- `Tclh_PointerRegisterCounted`: counted registration. -/
def Tclh_PointerRegisterCounted (r : TclhPointerRegistry) (pointer : Nat)
    (tag : Option String) :
    TclhPointerRegistry × Except TclhError (Nat × Option String) :=
  TclhPointerRegister r pointer tag true

/-- `PointerVerifyOrUnregister` of tclhPointerImpl.c: look the pointer up,
check the stored tag is compatible with the expected one and, when
`unregister` is set, drop one reference (deleting the record when the count
is at most 1, which covers the uncounted sentinel). -/
def PointerVerifyOrUnregister (r : TclhPointerRegistry) (pointer : Nat)
    (tag : Option String) (unregister : Bool) :
    TclhPointerRegistry × Except TclhError Unit :=
  match r.pointers pointer with
  | some rec =>
    if PointerTypeCompatible r.castables rec.tagObj tag then
      if unregister then
        if rec.nRefs ≤ 1 then
          ({ r with
              pointers := fun p => if p = pointer then none else r.pointers p },
           .ok ())
        else
          ({ r with
              pointers := fun p =>
                if p = pointer then some ⟨rec.tagObj, rec.nRefs - 1⟩
                else r.pointers p },
           .ok ())
      else (r, .ok ())
    else (r, .error .typeMismatch)
  | none => (r, .error .notFound)

/-- `Tclh_PointerUnregister`. -/
def Tclh_PointerUnregister (r : TclhPointerRegistry) (pointer : Nat)
    (tag : Option String) : TclhPointerRegistry × Except TclhError Unit :=
  PointerVerifyOrUnregister r pointer tag true

/-- `Tclh_PointerVerify`. -/
def Tclh_PointerVerify (r : TclhPointerRegistry) (pointer : Nat)
    (tag : Option String) : TclhPointerRegistry × Except TclhError Unit :=
  PointerVerifyOrUnregister r pointer tag false

/-- Modelled from the spec: `Tclh_HashAdd` is defined in tclhBase.h, which is
not among the sources here.  Per the specification of `defineSubtag` it adds
the key/value edge, failing with `Conflict` when the key already has a
different value on record (paragraph 4.2 of the spec). -/
def Tclh_HashAdd (table : String → Option String) (key value : String) :
    (String → Option String) × Except TclhError Unit :=
  match table key with
  | none => (fun s => if s = key then some value else table s, .ok ())
  | some w => if w = value then (table, .ok ()) else (table, .error .conflict)

/-- `Tclh_PointerSubtagDefine` of tclhPointerImpl.c: a `none` supertag and a
supertag textually equal to the subtag are silent no-ops; otherwise the edge
is added via `Tclh_HashAdd`. -/
def Tclh_PointerSubtagDefine (r : TclhPointerRegistry) (subtag : String)
    (supertag : Option String) : TclhPointerRegistry × Except TclhError Unit :=
  match supertag with
  | none => (r, .ok ())
  | some sup =>
    if subtag = sup then (r, .ok ())
    else
      match Tclh_HashAdd r.castables subtag sup with
      | (table, .ok _) => ({ r with castables := table }, .ok ())
      | (_, .error e) => (r, .error e)

/-- `Tclh_PointerSubtagRemove` of tclhPointerImpl.c: delete the edge for the
tag if present; always succeeds. -/
def Tclh_PointerSubtagRemove (r : TclhPointerRegistry) (tag : Option String) :
    TclhPointerRegistry :=
  match tag with
  | none => r
  | some t =>
    { r with castables := fun s => if s = t then none else r.castables s }

/-- A boxed pointer (`Tcl_Obj` of type `gPointerType`): the pointer value and
its tag, as set by `Tclh_PointerWrap`. -/
def Tclh_PointerWrap (pointer : Nat) (tag : Option String) :
    Nat × Option String :=
  (pointer, tag)

/-- `Tclh_PointerUnwrapTagged` of tclhPointerImpl.c, for a box already in
pointer form: the tag check runs only when an expected tag is supplied and
the box's pointer or tag is non-null; it accepts an identical tag without a
table lookup, otherwise it requires `PointerTypeCompatible`. -/
def Tclh_PointerUnwrapTagged (r : TclhPointerRegistry)
    (box : Nat × Option String) (expectedTag : Option String) :
    Except TclhError Nat :=
  match expectedTag with
  | none => .ok box.1
  | some _ =>
    if box.1 ≠ 0 ∨ box.2 ≠ none then
      if box.2 = expectedTag then .ok box.1
      else if PointerTypeCompatible r.castables box.2 expectedTag then .ok box.1
      else .error .typeMismatch
    else .ok box.1

/-- `Tclh_PointerObjUnregister` of tclhPointerImpl.c: unwrap against the tag,
then unregister only when the unwrapped pointer is non-null. -/
def Tclh_PointerObjUnregister (r : TclhPointerRegistry)
    (box : Nat × Option String) (tag : Option String) :
    TclhPointerRegistry × Except TclhError Unit :=
  match Tclh_PointerUnwrapTagged r box tag with
  | .error e => (r, .error e)
  | .ok pv =>
    if pv ≠ 0 then Tclh_PointerUnregister r pv tag
    else (r, .ok ())

/-- `Tclh_PointerCast` of tclhPointerImpl.c: take the box's tag as the old
tag; when the pointer is registered the registered tag must satisfy
`PointerTypeSame oldTag registeredTag`; the old and new tags must be
compatible in one direction or the other; a registered record then has its
tag replaced (reference count untouched), and a fresh box with the new tag
is returned. -/
def Tclh_PointerCast (r : TclhPointerRegistry) (box : Nat × Option String)
    (newTag : Option String) :
    TclhPointerRegistry × Except TclhError (Nat × Option String) :=
  let oldTag := box.2
  let pv := box.1
  match r.pointers pv with
  | some rec =>
    if PointerTypeSame oldTag rec.tagObj then
      if PointerTypeCompatible r.castables oldTag newTag
          || PointerTypeCompatible r.castables newTag oldTag then
        ({ r with
            pointers := fun p =>
              if p = pv then some ⟨newTag, rec.nRefs⟩ else r.pointers p },
         .ok (Tclh_PointerWrap pv newTag))
      else (r, .error .generic)
    else (r, .error .typeMismatch)
  | none =>
    if PointerTypeCompatible r.castables oldTag newTag
        || PointerTypeCompatible r.castables newTag oldTag then
      (r, .ok (Tclh_PointerWrap pv newTag))
    else (r, .error .generic)

/-- Run an operation `count` times, threading the registry and stopping at
the first error (each claim that uses this demands that every call
succeed, so the stopping behaviour is immaterial there). -/
def runN {α : Type} (f : TclhPointerRegistry →
    TclhPointerRegistry × Except TclhError α) :
    Nat → TclhPointerRegistry → TclhPointerRegistry × Except TclhError Unit
  | 0, r => (r, .ok ())
  | count + 1, r =>
    match f r with
    | (r', .ok _) => runN f count r'
    | (r', .error e) => (r', .error e)

/-- Hexadecimal digit characters, lowercase, as produced by a `%p` style
address rendering (argument taken modulo 16 by the callers). -/
def hexDigitChar : Nat → Char
  | 0 => '0' | 1 => '1' | 2 => '2' | 3 => '3' | 4 => '4'
  | 5 => '5' | 6 => '6' | 7 => '7' | 8 => '8' | 9 => '9'
  | 10 => 'a' | 11 => 'b' | 12 => 'c' | 13 => 'd' | 14 => 'e'
  | _ => 'f'

/-- Value of a hexadecimal digit character (either case), as accepted by the
C library scanner behind `sscanf %p`. -/
def hexVal : Char → Nat
  | '0' => 0 | '1' => 1 | '2' => 2 | '3' => 3 | '4' => 4
  | '5' => 5 | '6' => 6 | '7' => 7 | '8' => 8 | '9' => 9
  | 'a' => 10 | 'b' => 11 | 'c' => 12 | 'd' => 13 | 'e' => 14 | 'f' => 15
  | 'A' => 10 | 'B' => 11 | 'C' => 12 | 'D' => 13 | 'E' => 14 | 'F' => 15
  | _ => 0

/-- Whether a character is a hexadecimal digit (either case). -/
def isHexDigitChar (c : Char) : Bool :=
  match c with
  | '0' | '1' | '2' | '3' | '4' | '5' | '6' | '7' | '8' | '9' => true
  | 'a' | 'b' | 'c' | 'd' | 'e' | 'f' => true
  | 'A' | 'B' | 'C' | 'D' | 'E' | 'F' => true
  | _ => false

/-- Hexadecimal digit list of a number, most significant digit first. -/
def toHexChars (n : Nat) : List Char :=
  if _h : n < 16 then [hexDigitChar n]
  else toHexChars (n / 16) ++ [hexDigitChar (n % 16)]
decreasing_by omega

/-- Modelled from the spec: `TclhPrintAddress` is defined in tclhBase.h, which
is not among the sources here.  Per the spec's codec section the address is a
hex platform pointer rendering; modelled as `0x` followed by hex digits. -/
def TclhPrintAddress (p : Nat) : List Char :=
  '0' :: 'x' :: toHexChars p

/-- `UpdatePointerTypeString` of tclhPointerImpl.c (the encoder): the address
rendering, a `^` separator, then the tag text (empty when the tag is
absent) — unconditionally, including for the null pointer. -/
def UpdatePointerTypeString (box : Nat × Option String) : List Char :=
  TclhPrintAddress box.1 ++ '^' :: (box.2.getD "").data

/-- Greedy hexadecimal scan with accumulator: consume leading hex digits,
return the value and the unconsumed remainder. -/
def scanHex : List Char → Nat → Nat × List Char
  | [], acc => (acc, [])
  | c :: cs, acc =>
    if isHexDigitChar c then scanHex cs (16 * acc + hexVal c)
    else (acc, c :: cs)

/-- The `sscanf(srep, "%p^", &pv)` conversion of `SetPointerFromAny`,
modelled for the address grammar the encoder emits: `0x` followed by at
least one hex digit. -/
def scanPointer : List Char → Option Nat
  | '0' :: 'x' :: c :: rest =>
    if isHexDigitChar c then some (scanHex (c :: rest) 0).1 else none
  | _ => none

/-- `strchr(srep, '^')` of `SetPointerFromAny`: the text after the first `^`,
or `none` when there is no `^`. -/
def splitAfterCaret : List Char → Option (List Char)
  | [] => none
  | c :: cs => if c = '^' then some cs else splitAfterCaret cs

/-- `SetPointerFromAny` of tclhPointerImpl.c (the decoder): parse the address
prefix, take everything after the first `^` as the tag (empty meaning
absent); a string that does not parse as an address must be the literal
`NULL`, giving the null pointer with no tag; anything else is invalid. -/
def SetPointerFromAny (s : List Char) : Option (Nat × Option String) :=
  match scanPointer s with
  | some pv =>
    match splitAfterCaret s with
    | none => none
    | some rest => some (pv, if rest = [] then none else some (String.mk rest))
  | none => if s = "NULL".data then some (0, none) else none

/-- The chain of 11 subtag edges `T0 → T1 → … → T10 → T11` from the spec's
depth-cutoff property. -/
def chainEdges : List (String × String) :=
  [("T0", "T1"), ("T1", "T2"), ("T2", "T3"), ("T3", "T4"), ("T4", "T5"),
   ("T5", "T6"), ("T6", "T7"), ("T7", "T8"), ("T8", "T9"), ("T9", "T10"),
   ("T10", "T11")]

/-- The registry obtained by defining the edges of `chainEdges`, in order,
starting from the fresh registry. -/
def chainRegistry : TclhPointerRegistry :=
  chainEdges.foldl
    (fun r e => (Tclh_PointerSubtagDefine r e.1 (some e.2)).1) emptyRegistry

/-- The registry states reachable from the fresh registry by any sequence of
the mutating or querying operations: registration (both modes),
verify/unregister, cast, subtag definition and subtag removal. -/
inductive ReachableRegistry : TclhPointerRegistry → Prop where
  | init : ReachableRegistry emptyRegistry
  | register (r : TclhPointerRegistry) (p : Nat) (tag : Option String)
      (c : Bool) :
      ReachableRegistry r → ReachableRegistry (TclhPointerRegister r p tag c).1
  | verifyOrUnregister (r : TclhPointerRegistry) (p : Nat)
      (tag : Option String) (u : Bool) :
      ReachableRegistry r →
      ReachableRegistry (PointerVerifyOrUnregister r p tag u).1
  | cast (r : TclhPointerRegistry) (box : Nat × Option String)
      (newTag : Option String) :
      ReachableRegistry r → ReachableRegistry (Tclh_PointerCast r box newTag).1
  | subtagDefine (r : TclhPointerRegistry) (sub : String)
      (super : Option String) :
      ReachableRegistry r →
      ReachableRegistry (Tclh_PointerSubtagDefine r sub super).1
  | subtagRemove (r : TclhPointerRegistry) (tag : Option String) :
      ReachableRegistry r → ReachableRegistry (Tclh_PointerSubtagRemove r tag)

example :
    (Tclh_PointerVerify
      (TclhPointerRegister emptyRegistry 1 (some "Widget") true).1
      1 (some "Widget")).2 = .ok () := by rfl

example :
    PointerTypeCompatible chainRegistry.castables (some "T0") (some "T10")
      = true := by rfl

example :
    PointerTypeCompatible chainRegistry.castables (some "T0") (some "T11")
      = false := by rfl

example : SetPointerFromAny (UpdatePointerTypeString (9, some "Widget"))
    = some (9, some "Widget") := by
  simp [SetPointerFromAny, UpdatePointerTypeString, TclhPrintAddress,
    toHexChars, hexDigitChar, scanPointer, scanHex, isHexDigitChar, hexVal,
    splitAfterCaret]

example : UpdatePointerTypeString (4096, some "Widget")
    = "0x1000^Widget".data := by
  simp [UpdatePointerTypeString, TclhPrintAddress, toHexChars, hexDigitChar]

example : SetPointerFromAny (UpdatePointerTypeString (1, some ""))
    = some (1, none) := by
  simp [SetPointerFromAny, UpdatePointerTypeString, TclhPrintAddress,
    toHexChars, hexDigitChar, scanPointer, scanHex, isHexDigitChar, hexVal,
    splitAfterCaret]

/-! ### Helper lemmas about tags and the registry operations -/

theorem PointerTypeSame_refl (t : Option String) : PointerTypeSame t t = true := by
  cases t with
  | none => rfl
  | some s => simp [PointerTypeSame]

theorem PointerTypeSame_some_eq {t : Option String} {s : String}
    (h : PointerTypeSame t (some s) = true) : t = some s := by
  cases t with
  | none => simp [PointerTypeSame] at h
  | some ts => simp [PointerTypeSame] at h; rw [h]

theorem register_eq_null (r : TclhPointerRegistry) (tag : Option String)
    (c : Bool) :
    TclhPointerRegister r 0 tag c = (r, .error .invalidValue) := by
  unfold TclhPointerRegister
  simp

theorem register_eq_new (r : TclhPointerRegistry) (p : Nat)
    (tag : Option String) (c : Bool) (hp : p ≠ 0)
    (hrec : r.pointers p = none) :
    TclhPointerRegister r p tag c =
      ({ r with
          pointers := fun q =>
            if q = p then some ⟨tag, if c then 1 else -1⟩ else r.pointers q },
       .ok (p, tag)) := by
  unfold TclhPointerRegister
  simp [hp, hrec]

theorem register_eq_mismatch (r : TclhPointerRegistry) (p : Nat)
    (tag : Option String) (rec : TclhPointerRecord) (c : Bool) (hp : p ≠ 0)
    (hrec : r.pointers p = some rec)
    (hsame : ¬ PointerTypeSame rec.tagObj tag = true) :
    TclhPointerRegister r p tag c = (r, .error .typeMismatch) := by
  unfold TclhPointerRegister
  simp [hp, hrec, hsame]

theorem register_eq_counted_conflict (r : TclhPointerRegistry) (p : Nat)
    (tag : Option String) (rec : TclhPointerRecord) (hp : p ≠ 0)
    (hrec : r.pointers p = some rec)
    (hsame : PointerTypeSame rec.tagObj tag = true) (hn : rec.nRefs < 0) :
    TclhPointerRegister r p tag true = (r, .error .conflict) := by
  unfold TclhPointerRegister
  simp [hp, hrec, hsame, hn]

theorem register_eq_counted_incr (r : TclhPointerRegistry) (p : Nat)
    (tag : Option String) (rec : TclhPointerRecord) (hp : p ≠ 0)
    (hrec : r.pointers p = some rec)
    (hsame : PointerTypeSame rec.tagObj tag = true) (hn : 0 ≤ rec.nRefs) :
    TclhPointerRegister r p tag true =
      ({ r with
          pointers := fun q =>
            if q = p then some ⟨rec.tagObj, rec.nRefs + 1⟩
            else r.pointers q },
       .ok (p, tag)) := by
  have hn' : ¬ rec.nRefs < 0 := by omega
  unfold TclhPointerRegister
  simp [hp, hrec, hsame, hn']

theorem register_eq_uncounted_conflict (r : TclhPointerRegistry) (p : Nat)
    (tag : Option String) (rec : TclhPointerRecord) (hp : p ≠ 0)
    (hrec : r.pointers p = some rec)
    (hsame : PointerTypeSame rec.tagObj tag = true) (hn : 0 ≤ rec.nRefs) :
    TclhPointerRegister r p tag false = (r, .error .conflict) := by
  unfold TclhPointerRegister
  simp [hp, hrec, hsame, hn]

theorem register_eq_uncounted_noop (r : TclhPointerRegistry) (p : Nat)
    (tag : Option String) (rec : TclhPointerRecord) (hp : p ≠ 0)
    (hrec : r.pointers p = some rec)
    (hsame : PointerTypeSame rec.tagObj tag = true) (hn : rec.nRefs < 0) :
    TclhPointerRegister r p tag false = (r, .ok (p, tag)) := by
  have hn' : ¬ 0 ≤ rec.nRefs := by omega
  unfold TclhPointerRegister
  simp [hp, hrec, hsame, hn']

theorem vu_eq_notFound (r : TclhPointerRegistry) (p : Nat)
    (tag : Option String) (u : Bool) (hrec : r.pointers p = none) :
    PointerVerifyOrUnregister r p tag u = (r, .error .notFound) := by
  unfold PointerVerifyOrUnregister
  simp [hrec]

theorem vu_eq_mismatch (r : TclhPointerRegistry) (p : Nat)
    (tag : Option String) (u : Bool) (rec : TclhPointerRecord)
    (hrec : r.pointers p = some rec)
    (hc : ¬ PointerTypeCompatible r.castables rec.tagObj tag = true) :
    PointerVerifyOrUnregister r p tag u = (r, .error .typeMismatch) := by
  unfold PointerVerifyOrUnregister
  simp [hrec, hc]

theorem vu_eq_verify_ok (r : TclhPointerRegistry) (p : Nat)
    (tag : Option String) (rec : TclhPointerRecord)
    (hrec : r.pointers p = some rec)
    (hc : PointerTypeCompatible r.castables rec.tagObj tag = true) :
    PointerVerifyOrUnregister r p tag false = (r, .ok ()) := by
  unfold PointerVerifyOrUnregister
  simp [hrec, hc]

theorem vu_eq_delete (r : TclhPointerRegistry) (p : Nat)
    (tag : Option String) (rec : TclhPointerRecord)
    (hrec : r.pointers p = some rec)
    (hc : PointerTypeCompatible r.castables rec.tagObj tag = true)
    (hn : rec.nRefs ≤ 1) :
    PointerVerifyOrUnregister r p tag true =
      ({ r with pointers := fun q => if q = p then none else r.pointers q },
       .ok ()) := by
  unfold PointerVerifyOrUnregister
  simp [hrec, hc, hn]

theorem vu_eq_decr (r : TclhPointerRegistry) (p : Nat)
    (tag : Option String) (rec : TclhPointerRecord)
    (hrec : r.pointers p = some rec)
    (hc : PointerTypeCompatible r.castables rec.tagObj tag = true)
    (hn : ¬ rec.nRefs ≤ 1) :
    PointerVerifyOrUnregister r p tag true =
      ({ r with
          pointers := fun q =>
            if q = p then some ⟨rec.tagObj, rec.nRefs - 1⟩
            else r.pointers q },
       .ok ()) := by
  unfold PointerVerifyOrUnregister
  simp [hrec, hc, hn]

/-! ### C2, C4, C9, C10 -/

/-- C2: `PointerTypeCompatible` caps the ancestor walk at 10 hash lookups, so
on the chain of 11 subtag edges `T0 → … → T11` the tag `T11` (11 hops away)
is not reachable from `T0` while `T10` (10 hops away) is. -/
theorem pointer_compat_depth_cutoff :
    PointerTypeCompatible chainRegistry.castables (some "T0") (some "T11")
        = false
    ∧ PointerTypeCompatible chainRegistry.castables (some "T0") (some "T10")
        = true :=
  ⟨rfl, rfl⟩

/-- C4: a successful exclusive registration leaves an uncounted record, and a
subsequent counted registration of the same pointer and tag fails with
Conflict, the registry unchanged; symmetrically an exclusive registration on
a counted record (count at least 0, tag matching) fails with Conflict, the
registry unchanged. -/
theorem register_mode_conflict (r r1 : TclhPointerRegistry) (p : Nat)
    (T : Option String) (b : Nat × Option String) :
    (TclhPointerRegister r p T false = (r1, .ok b) →
      TclhPointerRegister r1 p T true = (r1, .error .conflict)
      ∧ ∃ tg m, r1.pointers p = some ⟨tg, m⟩ ∧ m < 0
          ∧ PointerTypeSame tg T = true)
    ∧ (∀ tg n, p ≠ 0 → r.pointers p = some ⟨tg, n⟩ → 0 ≤ n →
        PointerTypeSame tg T = true →
        TclhPointerRegister r p T false = (r, .error .conflict)) := by
  constructor
  · intro h
    by_cases hp : p = 0
    · subst hp
      rw [register_eq_null] at h
      simp at h
    · cases hrec : r.pointers p with
      | none =>
        rw [register_eq_new r p T false hp hrec] at h
        injection h with h1 h2
        subst h1
        have hl : ({ r with
            pointers := fun q =>
              if q = p then some ⟨T, if false then 1 else -1⟩
              else r.pointers q } :
              TclhPointerRegistry).pointers p = some ⟨T, -1⟩ := by simp
        refine ⟨?_, T, -1, hl, by norm_num, PointerTypeSame_refl T⟩
        rw [register_eq_counted_conflict _ p T ⟨T, -1⟩ hp hl
          (PointerTypeSame_refl T) (by norm_num)]
      | some rec =>
        by_cases hsame : PointerTypeSame rec.tagObj T = true
        · by_cases hn : (0 : Int) ≤ rec.nRefs
          · rw [register_eq_uncounted_conflict r p T rec hp hrec hsame hn] at h
            simp at h
          · rw [register_eq_uncounted_noop r p T rec hp hrec hsame
              (by omega)] at h
            injection h with h1 h2
            subst h1
            refine ⟨?_, rec.tagObj, rec.nRefs, by rw [hrec], by omega, hsame⟩
            rw [register_eq_counted_conflict r p T rec hp hrec hsame
              (by omega)]
        · rw [register_eq_mismatch r p T rec false hp hrec hsame] at h
          simp at h
  · intro tg n hp hrec hn hsame
    exact register_eq_uncounted_conflict r p T ⟨tg, n⟩ hp hrec hsame hn

/-- C9: `Tclh_PointerVerify` never changes the registry (neither the pointer
store nor the tag hierarchy), and its outcome (success, NotFound or
TypeMismatch) is exactly that of `Tclh_PointerUnregister` on the same state
and arguments. -/
theorem verify_frame_and_outcome (r : TclhPointerRegistry) (p : Nat)
    (t : Option String) :
    (Tclh_PointerVerify r p t).1 = r
    ∧ (Tclh_PointerVerify r p t).2 = (Tclh_PointerUnregister r p t).2 := by
  unfold Tclh_PointerVerify Tclh_PointerUnregister
  cases hrec : r.pointers p with
  | none => rw [vu_eq_notFound r p t false hrec, vu_eq_notFound r p t true hrec]; exact ⟨rfl, rfl⟩
  | some rec =>
    by_cases hc : PointerTypeCompatible r.castables rec.tagObj t = true
    · rw [vu_eq_verify_ok r p t rec hrec hc]
      refine ⟨rfl, ?_⟩
      by_cases hn : rec.nRefs ≤ 1
      · rw [vu_eq_delete r p t rec hrec hc hn]
      · rw [vu_eq_decr r p t rec hrec hc hn]
    · rw [vu_eq_mismatch r p t false rec hrec hc,
        vu_eq_mismatch r p t true rec hrec hc]
      exact ⟨rfl, rfl⟩

/-- C10: the null pointer is special-cased at the Obj level: unwrapping a box
holding the null pointer and no tag succeeds for every expected tag without
any compatibility check, `Tclh_PointerObjUnregister` on such a box succeeds
leaving the registry untouched, on any null-pointer box it never reports
NotFound and never touches the registry, and the null pointer itself can
never be registered. -/
theorem null_pointer_objlevel_special (r : TclhPointerRegistry)
    (expectedTag tagB : Option String) :
    Tclh_PointerUnwrapTagged r (0, none) expectedTag = .ok 0
    ∧ Tclh_PointerObjUnregister r (0, none) expectedTag = (r, .ok ())
    ∧ (Tclh_PointerObjUnregister r (0, tagB) expectedTag).1 = r
    ∧ (Tclh_PointerObjUnregister r (0, tagB) expectedTag).2
        ≠ .error .notFound
    ∧ ∀ t c, TclhPointerRegister r 0 t c = (r, .error .invalidValue) := by
  refine ⟨?_, ?_, ?_, ?_, ?_⟩
  · unfold Tclh_PointerUnwrapTagged
    cases expectedTag <;> simp
  · unfold Tclh_PointerObjUnregister Tclh_PointerUnwrapTagged
    cases expectedTag <;> simp
  · unfold Tclh_PointerObjUnregister Tclh_PointerUnwrapTagged
    cases expectedTag with
    | none => simp
    | some e =>
      cases tagB with
      | none => simp
      | some tb =>
        simp only [ne_eq, Option.some.injEq]
        split_ifs <;> simp
  · unfold Tclh_PointerObjUnregister Tclh_PointerUnwrapTagged
    cases expectedTag with
    | none => simp
    | some e =>
      cases tagB with
      | none => simp
      | some tb =>
        simp only [ne_eq, Option.some.injEq]
        split_ifs <;> simp
  · intro t c
    unfold TclhPointerRegister
    simp

/-- Witness for C4 at a concrete input: registering pointer 1 exclusively in
the fresh registry and then registering it counted fails with Conflict. -/
theorem register_mode_conflict_witness :
    TclhPointerRegister (TclhPointerRegister emptyRegistry 1 (some "A") false).1
        1 (some "A") true
      = ((TclhPointerRegister emptyRegistry 1 (some "A") false).1,
         .error .conflict) :=
  ((register_mode_conflict emptyRegistry
      (TclhPointerRegister emptyRegistry 1 (some "A") false).1 1 (some "A")
      (1, some "A")).1 rfl).1

/-! ### C8: subtag definition -/

/-- C8: `Tclh_PointerSubtagDefine` is a silent no-op (adding no edge) when
the supertag is absent ("untyped") or textually equal to the subtag;
otherwise it fails with Conflict exactly when the subtag already has a
different direct supertag on record. -/
theorem subtag_define_conflict_iff (r : TclhPointerRegistry) (sub : String)
    (super : Option String) :
    ((super = none ∨ super = some sub) →
      Tclh_PointerSubtagDefine r sub super = (r, .ok ()))
    ∧ (∀ sup, super = some sup → sup ≠ sub →
        ((Tclh_PointerSubtagDefine r sub super).2 = .error .conflict
          ↔ ∃ w, r.castables sub = some w ∧ w ≠ sup)) := by
  constructor
  · rintro (rfl | rfl)
    · rfl
    · unfold Tclh_PointerSubtagDefine
      simp
  · rintro sup rfl hne
    have hss : ¬ sub = sup := fun hcontra => hne hcontra.symm
    simp only [Tclh_PointerSubtagDefine, Tclh_HashAdd]
    rw [if_neg hss]
    cases hcs : r.castables sub with
    | none => simp [hcs]
    | some w =>
      by_cases hw : w = sup
      · subst hw
        simp [hcs]
      · simp [hcs, hw]

/-- Witness for C8 at a concrete input: with the edge A → B on record,
defining A → C conflicts exactly because the recorded supertag differs. -/
theorem subtag_define_conflict_iff_witness :
    (Tclh_PointerSubtagDefine
        (Tclh_PointerSubtagDefine emptyRegistry "A" (some "B")).1
        "A" (some "C")).2 = .error .conflict
      ↔ ∃ w, (Tclh_PointerSubtagDefine emptyRegistry "A" (some "B")).1.castables
          "A" = some w ∧ w ≠ "C" :=
  (subtag_define_conflict_iff
      (Tclh_PointerSubtagDefine emptyRegistry "A" (some "B")).1
      "A" (some "C")).2 "C" rfl (by decide)

/-! ### C6: subtype pass-through -/

theorem register_ok_pointers_tag {r r' : TclhPointerRegistry} {p : Nat}
    {D : String} {c : Bool} {b : Nat × Option String}
    (h : TclhPointerRegister r p (some D) c = (r', .ok b)) :
    r'.castables = r.castables
    ∧ ∃ m : Int, r'.pointers p = some ⟨some D, m⟩ := by
  by_cases hp : p = 0
  · subst hp
    rw [register_eq_null] at h
    simp at h
  · cases hrec : r.pointers p with
    | none =>
      rw [register_eq_new r p (some D) c hp hrec] at h
      injection h with h1 h2
      subst h1
      exact ⟨rfl, (if c then 1 else -1 : Int), by simp⟩
    | some rec =>
      by_cases hsame : PointerTypeSame rec.tagObj (some D) = true
      · have htag : rec.tagObj = some D := PointerTypeSame_some_eq hsame
        cases c with
        | false =>
          by_cases hn : (0 : Int) ≤ rec.nRefs
          · rw [register_eq_uncounted_conflict r p (some D) rec hp hrec hsame
              hn] at h
            simp at h
          · rw [register_eq_uncounted_noop r p (some D) rec hp hrec hsame
              (by omega)] at h
            injection h with h1 h2
            subst h1
            exact ⟨rfl, rec.nRefs, by rw [hrec, ← htag]⟩
        | true =>
          by_cases hn : rec.nRefs < 0
          · rw [register_eq_counted_conflict r p (some D) rec hp hrec hsame
              hn] at h
            simp at h
          · rw [register_eq_counted_incr r p (some D) rec hp hrec hsame
              (by omega)] at h
            injection h with h1 h2
            subst h1
            exact ⟨rfl, rec.nRefs + 1, by simp [htag]⟩
      · rw [register_eq_mismatch r p (some D) rec c hp hrec hsame] at h
        simp at h

theorem compat_loop_succ (c : String → Option String) (e : Option String)
    (t : String) (fuel : Nat) :
    PointerTypeCompatibleLoop c e t (fuel + 1) =
      match c t with
      | none => false
      | some super =>
        if PointerTypeSame (some super) e = true then true
        else PointerTypeCompatibleLoop c e super fuel := rfl

theorem compat_of_edge (c : String → Option String) (D B : String)
    (h : c D = some B) :
    PointerTypeCompatible c (some D) (some B) = true := by
  unfold PointerTypeCompatible
  by_cases hs : PointerTypeSame (some D) (some B) = true
  · simp [hs]
  · rw [if_neg hs]
    show PointerTypeCompatibleLoop c (some B) D (9 + 1) = true
    rw [compat_loop_succ, h]
    simp [PointerTypeSame_refl]

theorem define_ok_compat {r0 r1 : TclhPointerRegistry} {D B : String}
    (hd : Tclh_PointerSubtagDefine r0 D (some B) = (r1, .ok ())) :
    PointerTypeCompatible r1.castables (some D) (some B) = true := by
  by_cases hDB : D = B
  · subst hDB
    unfold PointerTypeCompatible
    simp [PointerTypeSame_refl]
  · have hedge : r1.castables D = some B := by
      simp only [Tclh_PointerSubtagDefine, Tclh_HashAdd] at hd
      rw [if_neg hDB] at hd
      cases hcs : r0.castables D with
      | none =>
        simp only [hcs] at hd
        injection hd with h1 h2
        subst h1
        simp
      | some w =>
        simp only [hcs] at hd
        by_cases hw : w = B
        · subst hw
          simp only [if_pos rfl] at hd
          injection hd with h1 h2
          subst h1
          exact hcs
        · simp [hw] at hd
    exact compat_of_edge r1.castables D B hedge

/-- C6: after a successful `Tclh_PointerSubtagDefine Derived Base` and a
successful registration of a pointer with tag Derived (in either mode),
verifying the pointer against tag Base succeeds: the verify compatibility
check accepts an ancestor of the registered tag. -/
theorem subtype_verify_passthrough (r0 r1 r2 : TclhPointerRegistry)
    (p : Nat) (D B : String) (c : Bool) (b : Nat × Option String)
    (hd : Tclh_PointerSubtagDefine r0 D (some B) = (r1, .ok ()))
    (hr : TclhPointerRegister r1 p (some D) c = (r2, .ok b)) :
    Tclh_PointerVerify r2 p (some B) = (r2, .ok ()) := by
  obtain ⟨hcast, m, hrec⟩ := register_ok_pointers_tag hr
  have hcompat : PointerTypeCompatible r2.castables (some D) (some B)
      = true := by
    rw [hcast]
    exact define_ok_compat hd
  unfold Tclh_PointerVerify
  rw [vu_eq_verify_ok r2 p (some B) ⟨some D, m⟩ hrec hcompat]

/-- Witness for C6 at a concrete input: Derived → Base defined, pointer 1
registered as Derived, verify against Base succeeds. -/
theorem subtype_verify_passthrough_witness :
    Tclh_PointerVerify
        (TclhPointerRegister
          (Tclh_PointerSubtagDefine emptyRegistry "Derived" (some "Base")).1
          1 (some "Derived") false).1
        1 (some "Base")
      = ((TclhPointerRegister
          (Tclh_PointerSubtagDefine emptyRegistry "Derived" (some "Base")).1
          1 (some "Derived") false).1, .ok ()) :=
  subtype_verify_passthrough emptyRegistry
    (Tclh_PointerSubtagDefine emptyRegistry "Derived" (some "Base")).1
    (TclhPointerRegister
      (Tclh_PointerSubtagDefine emptyRegistry "Derived" (some "Base")).1
      1 (some "Derived") false).1
    1 "Derived" "Base" false (1, some "Derived") rfl rfl

/-! ### C5: casting -/

theorem cast_eq_mismatch (r : TclhPointerRegistry) (p : Nat)
    (oldTag newTag : Option String) (rec : TclhPointerRecord)
    (hrec : r.pointers p = some rec)
    (hsame : ¬ PointerTypeSame oldTag rec.tagObj = true) :
    Tclh_PointerCast r (p, oldTag) newTag = (r, .error .typeMismatch) := by
  unfold Tclh_PointerCast
  simp [hrec, hsame]

theorem cast_eq_retag (r : TclhPointerRegistry) (p : Nat)
    (oldTag newTag : Option String) (rec : TclhPointerRecord)
    (hrec : r.pointers p = some rec)
    (hsame : PointerTypeSame oldTag rec.tagObj = true)
    (hcomp : (PointerTypeCompatible r.castables oldTag newTag
        || PointerTypeCompatible r.castables newTag oldTag) = true) :
    Tclh_PointerCast r (p, oldTag) newTag =
      ({ r with
          pointers := fun q =>
            if q = p then some ⟨newTag, rec.nRefs⟩ else r.pointers q },
       .ok (p, newTag)) := by
  unfold Tclh_PointerCast Tclh_PointerWrap
  simp [hrec, hsame, hcomp]

/-- C5 (amended): when the registered tag equals the box's claimed old tag
and the tags are compatible in one direction, `Tclh_PointerCast` replaces
the record's tag keeping its count; when the registered tag is present
(non-null) and differs from the box's tag the cast fails with TypeMismatch,
registry unchanged.  (As stated the claim is false: a null registered tag
passes the `PointerTypeSame` gate whatever the box claims, see the
counterexample.) -/
theorem pointer_cast_retag (r : TclhPointerRegistry) (p : Nat)
    (tg oldTag newTag : Option String) (n : Int)
    (hrec : r.pointers p = some ⟨tg, n⟩) :
    (tg = oldTag →
      (PointerTypeCompatible r.castables oldTag newTag
        || PointerTypeCompatible r.castables newTag oldTag) = true →
      Tclh_PointerCast r (p, oldTag) newTag =
        ({ r with
            pointers := fun q =>
              if q = p then some ⟨newTag, n⟩ else r.pointers q },
         .ok (p, newTag)))
    ∧ (tg ≠ oldTag → tg ≠ none →
        Tclh_PointerCast r (p, oldTag) newTag = (r, .error .typeMismatch)) := by
  constructor
  · rintro rfl hcomp
    exact cast_eq_retag r p tg newTag ⟨tg, n⟩ hrec (PointerTypeSame_refl tg)
      hcomp
  · intro hne hnn
    refine cast_eq_mismatch r p oldTag newTag ⟨tg, n⟩ hrec ?_
    cases htg : tg with
    | none => exact absurd htg hnn
    | some w =>
      subst htg
      cases oldTag with
      | none => simp [PointerTypeSame]
      | some x =>
        simp only [PointerTypeSame]
        simp only [beq_iff_eq]
        intro hxw
        exact hne (by rw [hxw])

/-- Witness for C5 (amended) at concrete inputs: a truthful box retags the
record; a lying box over a non-null registered tag fails with TypeMismatch. -/
theorem pointer_cast_retag_witness :
    (Tclh_PointerCast (TclhPointerRegister emptyRegistry 1 (some "A") true).1
        (1, some "A") (some "A")).2 = .ok (1, some "A")
    ∧ Tclh_PointerCast (TclhPointerRegister emptyRegistry 1 (some "A") true).1
        (1, some "B") (some "C")
      = ((TclhPointerRegister emptyRegistry 1 (some "A") true).1,
         .error .typeMismatch) := by
  constructor
  · rw [(pointer_cast_retag (TclhPointerRegister emptyRegistry 1 (some "A")
      true).1 1 (some "A") (some "A") (some "A") 1 rfl).1 rfl (by decide)]
  · exact (pointer_cast_retag (TclhPointerRegister emptyRegistry 1 (some "A")
      true).1 1 (some "A") (some "B") (some "C") 1 rfl).2 (by decide)
      (by decide)

/-- Counterexample to C5 as stated: pointer 1 is registered with the null
(untyped) tag, a box claiming tag A differs from the registered tag, yet the
cast does not fail with TypeMismatch: it succeeds and overwrites the
record's tag. -/
theorem pointer_cast_counterexample :
    (TclhPointerRegister emptyRegistry 1 none true).1.pointers 1
        = some ⟨none, 1⟩
    ∧ (Tclh_PointerCast (TclhPointerRegister emptyRegistry 1 none true).1
        (1, some "A") (some "A")).2 = .ok (1, some "A")
    ∧ (Tclh_PointerCast (TclhPointerRegister emptyRegistry 1 none true).1
        (1, some "A") (some "A")).1.pointers 1 = some ⟨some "A", 1⟩ :=
  ⟨rfl, rfl, rfl⟩


/-! ### C1: counted balance -/

theorem registry_ext {a b : TclhPointerRegistry}
    (h1 : a.pointers = b.pointers) (h2 : a.castables = b.castables) :
    a = b := by
  cases a
  cases b
  cases h1
  cases h2
  rfl

theorem runN_succ_ok {α : Type}
    (f : TclhPointerRegistry → TclhPointerRegistry × Except TclhError α)
    {k : Nat} {r r' : TclhPointerRegistry} {a : α}
    (h : f r = (r', .ok a)) :
    runN f (k + 1) r = runN f k r' := by
  simp only [runN]
  rw [h]

theorem runN_register_counted (p : Nat) (T : Option String) (hp : p ≠ 0) :
    ∀ (k : Nat) (r : TclhPointerRegistry) (j : Int), 0 ≤ j →
      r.pointers p = some ⟨T, j⟩ →
      runN (fun s => TclhPointerRegister s p T true) k r
        = ({ r with
              pointers := fun q =>
                if q = p then some ⟨T, j + k⟩ else r.pointers q },
           .ok ()) := by
  intro k
  induction k with
  | zero =>
    intro r j hj hrec
    show (r, (.ok () : Except TclhError Unit)) = _
    rw [Prod.mk.injEq]
    refine ⟨registry_ext ?_ rfl, rfl⟩
    funext q
    by_cases hq : q = p
    · subst hq
      simp [hrec]
    · simp [hq]
  | succ k ih =>
    intro r j hj hrec
    have hstep : (fun s => TclhPointerRegister s p T true) r
        = ({ r with
              pointers := fun q =>
                if q = p then some ⟨T, j + 1⟩ else r.pointers q },
           .ok (p, T)) :=
      register_eq_counted_incr r p T ⟨T, j⟩ hp hrec (PointerTypeSame_refl T) hj
    rw [runN_succ_ok _ hstep]
    rw [ih _ (j + 1) (by omega) (by simp)]
    rw [Prod.mk.injEq]
    refine ⟨registry_ext ?_ rfl, rfl⟩
    funext q
    by_cases hq : q = p
    · subst hq
      simp
      omega
    · simp [hq]

theorem runN_unregister (p : Nat) (T T' : Option String)
    (c0 : String → Option String)
    (hc : PointerTypeCompatible c0 T T' = true) :
    ∀ (k : Nat) (r : TclhPointerRegistry), 1 ≤ k → r.castables = c0 →
      r.pointers p = some ⟨T, (k : Int)⟩ →
      runN (fun s => Tclh_PointerUnregister s p T') k r
        = ({ r with
              pointers := fun q => if q = p then none else r.pointers q },
           .ok ()) := by
  intro k
  induction k with
  | zero =>
    intro r h1 _ _
    omega
  | succ k ih =>
    intro r h1 hcast hrec
    have hcomp : PointerTypeCompatible r.castables
        (⟨T, ((k + 1 : Nat) : Int)⟩ : TclhPointerRecord).tagObj T' = true := by
      rw [hcast]
      exact hc
    by_cases hk : k = 0
    · subst hk
      have hstep : (fun s => Tclh_PointerUnregister s p T') r
          = ({ r with
                pointers := fun q => if q = p then none else r.pointers q },
             .ok ()) :=
        vu_eq_delete r p T' ⟨T, ((0 + 1 : Nat) : Int)⟩ hrec hcomp (by simp)
      rw [runN_succ_ok _ hstep]
      rfl
    · have hn : ¬ (⟨T, ((k + 1 : Nat) : Int)⟩ : TclhPointerRecord).nRefs ≤ 1 := by
        show ¬ ((k + 1 : Nat) : Int) ≤ 1
        push_cast
        omega
      have hstep : (fun s => Tclh_PointerUnregister s p T') r
          = ({ r with
                pointers := fun q =>
                  if q = p then some ⟨T, ((k + 1 : Nat) : Int) - 1⟩
                  else r.pointers q },
             .ok ()) :=
        vu_eq_decr r p T' ⟨T, ((k + 1 : Nat) : Int)⟩ hrec hcomp hn
      have hrec' : ({ r with
            pointers := fun q =>
              if q = p then some ⟨T, ((k + 1 : Nat) : Int) - 1⟩
              else r.pointers q } :
            TclhPointerRegistry).pointers p = some ⟨T, (k : Int)⟩ := by
        have hval : ((k + 1 : Nat) : Int) - 1 = (k : Int) := by
          push_cast
          ring
        simp [hval]
      have ihres := ih ({ r with
          pointers := fun q =>
            if q = p then some ⟨T, ((k + 1 : Nat) : Int) - 1⟩
            else r.pointers q }) (by omega) hcast hrec'
      rw [runN_succ_ok _ hstep, ihres]
      rw [Prod.mk.injEq]
      refine ⟨registry_ext ?_ rfl, rfl⟩
      funext q
      by_cases hq : q = p
      · subst hq
        simp
      · simp [hq]

/-- C1: starting from a state where a non-null pointer is unregistered,
registering it counted n times with tag T (all succeeding) and then
unregistering it n times with a tag the stored tag is compatible with (all
succeeding) leaves the pointer with no record, so a further verify fails
with NotFound. -/
theorem pointer_counted_balance (r0 : TclhPointerRegistry) (p : Nat)
    (T T' : Option String) (n : Nat) (hn : 1 ≤ n) (hp : p ≠ 0)
    (hu : r0.pointers p = none)
    (hc : PointerTypeCompatible r0.castables T T' = true) :
    ∃ r1 r2,
      runN (fun s => TclhPointerRegister s p T true) n r0 = (r1, .ok ())
      ∧ runN (fun s => Tclh_PointerUnregister s p T') n r1 = (r2, .ok ())
      ∧ r2.pointers p = none
      ∧ (Tclh_PointerVerify r2 p T).2 = .error .notFound := by
  obtain ⟨m, rfl⟩ : ∃ m, n = m + 1 := ⟨n - 1, by omega⟩
  have hA : (fun s => TclhPointerRegister s p T true) r0
      = ({ r0 with
            pointers := fun q =>
              if q = p then some ⟨T, if true then 1 else -1⟩
              else r0.pointers q },
         .ok (p, T)) :=
    register_eq_new r0 p T true hp hu
  have hB := runN_register_counted p T hp m
    ({ r0 with
        pointers := fun q =>
          if q = p then some ⟨T, if true then 1 else -1⟩
          else r0.pointers q }) 1 (by norm_num) (by simp)
  obtain ⟨R1, hR1, hR1p, hR1c⟩ :
      ∃ R1, runN (fun s => TclhPointerRegister s p T true) (m + 1) r0
          = (R1, .ok ())
        ∧ R1.pointers p = some ⟨T, ((m + 1 : Nat) : Int)⟩
        ∧ R1.castables = r0.castables := by
    refine ⟨_, (runN_succ_ok (fun s => TclhPointerRegister s p T true)
      hA).trans hB, ?_, rfl⟩
    simp
    omega
  obtain ⟨R2, hR2, hR2p⟩ :
      ∃ R2, runN (fun s => Tclh_PointerUnregister s p T') (m + 1) R1
          = (R2, .ok ())
        ∧ R2.pointers p = none := by
    refine ⟨_, runN_unregister p T T' r0.castables hc (m + 1) R1 (by omega)
      hR1c hR1p, ?_⟩
    simp
  refine ⟨R1, R2, hR1, hR2, hR2p, ?_⟩
  unfold Tclh_PointerVerify
  rw [vu_eq_notFound R2 p T false hR2p]

/-- Witness for C1 at a concrete input: one counted registration of pointer 1
followed by one unregistration in the fresh registry leaves it NotFound. -/
theorem pointer_counted_balance_witness :
    ∃ r1 r2,
      runN (fun s => TclhPointerRegister s 1 (some "W") true) 1 emptyRegistry
        = (r1, .ok ())
      ∧ runN (fun s => Tclh_PointerUnregister s 1 (some "W")) 1 r1
        = (r2, .ok ())
      ∧ r2.pointers 1 = none
      ∧ (Tclh_PointerVerify r2 1 (some "W")).2 = .error .notFound :=
  pointer_counted_balance emptyRegistry 1 (some "W") (some "W") 1
    (by norm_num) (by norm_num) rfl (by decide)

/-! ### C7: the reference-count invariant -/

theorem register_fst_pointers (r0 : TclhPointerRegistry) (p0 : Nat)
    (tag : Option String) (c : Bool) :
    ((TclhPointerRegister r0 p0 tag c).1.pointers = r0.pointers)
    ∨ ((TclhPointerRegister r0 p0 tag c).1.pointers
        = fun q =>
            if q = p0 then some ⟨tag, if c then 1 else -1⟩
            else r0.pointers q)
    ∨ (∃ rec0, r0.pointers p0 = some rec0 ∧ 0 ≤ rec0.nRefs ∧
        (TclhPointerRegister r0 p0 tag c).1.pointers
          = fun q =>
              if q = p0 then some ⟨rec0.tagObj, rec0.nRefs + 1⟩
              else r0.pointers q) := by
  by_cases hp : p0 = 0
  · subst hp
    left
    rw [register_eq_null]
  · cases hrec0 : r0.pointers p0 with
    | none =>
      right
      left
      rw [register_eq_new r0 p0 tag c hp hrec0]
    | some rec0 =>
      by_cases hsame : PointerTypeSame rec0.tagObj tag = true
      · cases c with
        | true =>
          by_cases hn : rec0.nRefs < 0
          · left
            rw [register_eq_counted_conflict r0 p0 tag rec0 hp hrec0 hsame hn]
          · right
            right
            exact ⟨rec0, rfl, by omega,
              by rw [register_eq_counted_incr r0 p0 tag rec0 hp hrec0 hsame
                (by omega)]⟩
        | false =>
          by_cases hn : 0 ≤ rec0.nRefs
          · left
            rw [register_eq_uncounted_conflict r0 p0 tag rec0 hp hrec0 hsame
              hn]
          · left
            rw [register_eq_uncounted_noop r0 p0 tag rec0 hp hrec0 hsame
              (by omega)]
      · left
        rw [register_eq_mismatch r0 p0 tag rec0 c hp hrec0 hsame]

theorem vu_fst_pointers (r0 : TclhPointerRegistry) (p0 : Nat)
    (tag : Option String) (u : Bool) :
    ((PointerVerifyOrUnregister r0 p0 tag u).1.pointers = r0.pointers)
    ∨ ((PointerVerifyOrUnregister r0 p0 tag u).1.pointers
        = fun q => if q = p0 then none else r0.pointers q)
    ∨ (∃ rec0, r0.pointers p0 = some rec0 ∧ ¬ rec0.nRefs ≤ 1 ∧
        (PointerVerifyOrUnregister r0 p0 tag u).1.pointers
          = fun q =>
              if q = p0 then some ⟨rec0.tagObj, rec0.nRefs - 1⟩
              else r0.pointers q) := by
  cases hrec0 : r0.pointers p0 with
  | none =>
    left
    rw [vu_eq_notFound r0 p0 tag u hrec0]
  | some rec0 =>
    by_cases hc : PointerTypeCompatible r0.castables rec0.tagObj tag = true
    · cases u with
      | false =>
        left
        rw [vu_eq_verify_ok r0 p0 tag rec0 hrec0 hc]
      | true =>
        by_cases hn : rec0.nRefs ≤ 1
        · right
          left
          rw [vu_eq_delete r0 p0 tag rec0 hrec0 hc hn]
        · right
          right
          exact ⟨rec0, rfl, hn, by rw [vu_eq_decr r0 p0 tag rec0 hrec0 hc hn]⟩
    · left
      rw [vu_eq_mismatch r0 p0 tag u rec0 hrec0 hc]

theorem cast_fst_pointers (r0 : TclhPointerRegistry)
    (box : Nat × Option String) (newTag : Option String) :
    ((Tclh_PointerCast r0 box newTag).1.pointers = r0.pointers)
    ∨ (∃ rec0, r0.pointers box.1 = some rec0 ∧
        (Tclh_PointerCast r0 box newTag).1.pointers
          = fun q =>
              if q = box.1 then some ⟨newTag, rec0.nRefs⟩
              else r0.pointers q) := by
  unfold Tclh_PointerCast
  cases hrec0 : r0.pointers box.1 with
  | none =>
    left
    simp only [hrec0]
    split <;> rfl
  | some rec0 =>
    by_cases hsame : PointerTypeSame box.2 rec0.tagObj = true
    · by_cases hcomp : (PointerTypeCompatible r0.castables box.2 newTag
          || PointerTypeCompatible r0.castables newTag box.2) = true
      · right
        refine ⟨rec0, rfl, ?_⟩
        simp [hrec0, hsame, hcomp]
      · left
        simp [hrec0, hsame, hcomp]
    · left
      simp [hrec0, hsame]

theorem subtagDefine_pointers (r0 : TclhPointerRegistry) (sub : String)
    (super : Option String) :
    (Tclh_PointerSubtagDefine r0 sub super).1.pointers = r0.pointers := by
  cases super with
  | none => rfl
  | some sup =>
    simp only [Tclh_PointerSubtagDefine]
    by_cases hss : sub = sup
    · rw [if_pos hss]
    · rw [if_neg hss]
      simp only [Tclh_HashAdd]
      cases hcs : r0.castables sub with
      | none => simp [hcs]
      | some w =>
        by_cases hw : w = sup <;> simp [hcs, hw]

theorem subtagRemove_pointers (r0 : TclhPointerRegistry)
    (tag : Option String) :
    (Tclh_PointerSubtagRemove r0 tag).pointers = r0.pointers := by
  cases tag <;> rfl

theorem reachable_nRefs_aux :
    ∀ r, ReachableRegistry r →
      ∀ p rec, r.pointers p = some rec → rec.nRefs = -1 ∨ 1 ≤ rec.nRefs := by
  intro r h
  induction h with
  | init =>
    intro p rec hrec
    exact absurd hrec (by simp [emptyRegistry])
  | register r0 p0 tag c _ ih =>
    intro p rec hrec
    rcases register_fst_pointers r0 p0 tag c with heq | heq |
      ⟨rec0, hrec0, hn0, heq⟩
    · rw [heq] at hrec
      exact ih p rec hrec
    · simp only [heq] at hrec
      by_cases hq : p = p0
      · rw [if_pos hq] at hrec
        injection hrec with h'
        rw [← h']
        cases c <;> simp
      · rw [if_neg hq] at hrec
        exact ih p rec hrec
    · simp only [heq] at hrec
      by_cases hq : p = p0
      · rw [if_pos hq] at hrec
        injection hrec with h'
        rw [← h']
        right
        show 1 ≤ rec0.nRefs + 1
        omega
      · rw [if_neg hq] at hrec
        exact ih p rec hrec
  | verifyOrUnregister r0 p0 tag u _ ih =>
    intro p rec hrec
    rcases vu_fst_pointers r0 p0 tag u with heq | heq |
      ⟨rec0, hrec0, hn0, heq⟩
    · rw [heq] at hrec
      exact ih p rec hrec
    · simp only [heq] at hrec
      by_cases hq : p = p0
      · rw [if_pos hq] at hrec
        exact absurd hrec (by simp)
      · rw [if_neg hq] at hrec
        exact ih p rec hrec
    · simp only [heq] at hrec
      by_cases hq : p = p0
      · rw [if_pos hq] at hrec
        injection hrec with h'
        rw [← h']
        have h0 := ih p0 rec0 hrec0
        right
        show 1 ≤ rec0.nRefs - 1
        omega
      · rw [if_neg hq] at hrec
        exact ih p rec hrec
  | cast r0 box newTag _ ih =>
    intro p rec hrec
    rcases cast_fst_pointers r0 box newTag with heq | ⟨rec0, hrec0, heq⟩
    · rw [heq] at hrec
      exact ih p rec hrec
    · simp only [heq] at hrec
      by_cases hq : p = box.1
      · rw [if_pos hq] at hrec
        injection hrec with h'
        rw [← h']
        exact ih box.1 rec0 hrec0
      · rw [if_neg hq] at hrec
        exact ih p rec hrec
  | subtagDefine r0 sub super _ ih =>
    intro p rec hrec
    rw [subtagDefine_pointers] at hrec
    exact ih p rec hrec
  | subtagRemove r0 tag _ ih =>
    intro p rec hrec
    rw [subtagRemove_pointers] at hrec
    exact ih p rec hrec

/-- C7: in every registry state reachable from the fresh registry by any
sequence of register, unregister, verify, cast, defineSubtag and
removeSubtag operations, every stored record's reference count is either the
exclusive sentinel -1 or at least 1: a count of 0 never exists, the record
being deleted at the transition where the count would reach 0. -/
theorem counted_record_invariant (r : TclhPointerRegistry)
    (h : ReachableRegistry r) (p : Nat) (rec : TclhPointerRecord)
    (hrec : r.pointers p = some rec) :
    rec.nRefs = -1 ∨ 1 ≤ rec.nRefs :=
  reachable_nRefs_aux r h p rec hrec

/-- Witness for C7 at a concrete input: the record created by one counted
registration in the fresh registry has count 1, satisfying the invariant. -/
theorem counted_record_invariant_witness :
    ((⟨some "T", 1⟩ : TclhPointerRecord).nRefs = -1
      ∨ 1 ≤ (⟨some "T", 1⟩ : TclhPointerRecord).nRefs) :=
  counted_record_invariant
    (TclhPointerRegister emptyRegistry 1 (some "T") true).1
    (ReachableRegistry.register emptyRegistry 1 (some "T") true
      ReachableRegistry.init)
    1 ⟨some "T", 1⟩ rfl

/-! ### C3: the boxed-pointer codec -/

theorem hexVal_hexDigitChar : ∀ m < 16, hexVal (hexDigitChar m) = m := by
  decide

theorem isHexDigitChar_hexDigitChar (m : Nat) :
    isHexDigitChar (hexDigitChar m) = true := by
  rcases Nat.lt_or_ge m 15 with h | h
  · have hb : ∀ m' < 15, isHexDigitChar (hexDigitChar m') = true := by decide
    exact hb m h
  · obtain ⟨k, rfl⟩ : ∃ k, m = k + 15 := ⟨m - 15, by omega⟩
    rfl

theorem toHexChars_all_hex (n : Nat) :
    ∀ c ∈ toHexChars n, isHexDigitChar c = true := by
  induction n using Nat.strong_induction_on with
  | _ n ih =>
    intro c hc
    rw [toHexChars] at hc
    split at hc
    · simp at hc
      subst hc
      exact isHexDigitChar_hexDigitChar n
    · rename_i h16
      rw [List.mem_append] at hc
      rcases hc with hc | hc
      · exact ih (n / 16) (by omega) c hc
      · simp at hc
        subst hc
        exact isHexDigitChar_hexDigitChar (n % 16)

theorem toHexChars_ne_nil (n : Nat) : toHexChars n ≠ [] := by
  rw [toHexChars]
  split
  · simp
  · simp

theorem hex_ne_caret (c : Char) (h : isHexDigitChar c = true) : c ≠ '^' := by
  intro hc
  subst hc
  exact absurd h (by decide)

theorem scanHex_append_caret (l tail : List Char)
    (hl : ∀ c ∈ l, isHexDigitChar c = true) :
    ∀ acc, scanHex (l ++ '^' :: tail) acc
      = (List.foldl (fun a c => 16 * a + hexVal c) acc l, '^' :: tail) := by
  induction l with
  | nil =>
    intro acc
    simp [scanHex, isHexDigitChar]
  | cons c cs ihl =>
    intro acc
    have hc : isHexDigitChar c = true := hl c (by simp)
    have hcs : ∀ x ∈ cs, isHexDigitChar x = true :=
      fun x hx => hl x (by simp [hx])
    simp only [List.cons_append, scanHex, hc, if_true, List.foldl_cons]
    exact ihl hcs _

theorem foldl_hex_toHexChars (n : Nat) :
    ∀ acc, ∃ k, List.foldl (fun a c => 16 * a + hexVal c) acc (toHexChars n)
      = acc * 16 ^ k + n := by
  induction n using Nat.strong_induction_on with
  | _ n ih =>
    intro acc
    rw [toHexChars]
    split
    · rename_i h16
      refine ⟨1, ?_⟩
      simp only [List.foldl_cons, List.foldl_nil]
      rw [hexVal_hexDigitChar n h16, pow_one]
      ring
    · rename_i h16
      obtain ⟨k, hk⟩ := ih (n / 16) (by omega) acc
      refine ⟨k + 1, ?_⟩
      rw [List.foldl_append, hk]
      simp only [List.foldl_cons, List.foldl_nil]
      rw [hexVal_hexDigitChar (n % 16) (by omega), pow_succ, ← mul_assoc]
      generalize acc * 16 ^ k = A
      omega

theorem scanPointer_encode (p : Nat) (tail : List Char) :
    scanPointer (('0' :: 'x' :: toHexChars p) ++ '^' :: tail) = some p := by
  obtain ⟨c, cs, hcons⟩ : ∃ c cs, toHexChars p = c :: cs := by
    cases h : toHexChars p with
    | nil => exact absurd h (toHexChars_ne_nil p)
    | cons c cs => exact ⟨c, cs, rfl⟩
  have hall : ∀ x ∈ c :: cs, isHexDigitChar x = true := by
    rw [← hcons]
    exact toHexChars_all_hex p
  have hc : isHexDigitChar c = true := hall c (by simp)
  rw [hcons]
  simp only [List.cons_append]
  simp only [scanPointer]
  rw [hc]
  rw [if_pos rfl]
  have hscan := scanHex_append_caret (c :: cs) tail hall 0
  simp only [List.cons_append] at hscan
  rw [hscan]
  obtain ⟨k, hk⟩ := foldl_hex_toHexChars p 0
  rw [hcons] at hk
  rw [hk]
  simp

theorem splitAfterCaret_append (l tail : List Char)
    (hl : ∀ c ∈ l, c ≠ '^') :
    splitAfterCaret (l ++ '^' :: tail) = some tail := by
  induction l with
  | nil => simp [splitAfterCaret]
  | cons c cs ihl =>
    have hc : c ≠ '^' := hl c (by simp)
    simp only [List.cons_append, splitAfterCaret]
    rw [if_neg hc]
    exact ihl (fun x hx => hl x (by simp [hx]))

/-- C3 (amended): decoding inverts encoding for every pair whose tag is not
the present-but-empty tag (a present empty tag decodes back as an absent
tag); the decoder additionally accepts the literal `NULL` as the null
pointer with no tag, but the encoder never produces that literal: even the
null pointer is rendered as `<address>^<tag>`. -/
theorem pointer_codec_round_trip (p : Nat) (t : Option String)
    (ht : t ≠ some "") :
    SetPointerFromAny (UpdatePointerTypeString (p, t)) = some (p, t)
    ∧ SetPointerFromAny ("NULL".data) = some (0, none)
    ∧ UpdatePointerTypeString (0, none) ≠ "NULL".data := by
  refine ⟨?_, by rfl, ?_⟩
  · show SetPointerFromAny
        (('0' :: 'x' :: toHexChars p) ++ '^' :: (t.getD "").data)
      = some (p, t)
    have hsp := scanPointer_encode p ((t.getD "").data)
    have hsc : splitAfterCaret
        (('0' :: 'x' :: toHexChars p) ++ '^' :: (t.getD "").data)
        = some ((t.getD "").data) := by
      apply splitAfterCaret_append
      intro c hc
      simp only [List.mem_cons] at hc
      rcases hc with rfl | rfl | hc
      · decide
      · decide
      · exact hex_ne_caret c (toHexChars_all_hex p c hc)
    simp only [SetPointerFromAny, hsp, hsc]
    cases t with
    | none => simp
    | some s =>
      obtain ⟨l⟩ := s
      have hd : l ≠ [] := by
        intro h
        subst h
        exact ht rfl
      simp [hd]
  · have hval : UpdatePointerTypeString (0, none) = ['0', 'x', '0', '^'] := by
      simp [UpdatePointerTypeString, TclhPrintAddress, toHexChars,
        hexDigitChar]
    rw [hval]
    decide

/-- Witness for C3 (amended) at a concrete input: the pair (9, "Widget")
round-trips, `NULL` decodes to the null pointer, and the encoded null
pointer is not the literal `NULL`. -/
theorem pointer_codec_round_trip_witness :
    SetPointerFromAny (UpdatePointerTypeString (9, some "Widget"))
        = some (9, some "Widget")
    ∧ SetPointerFromAny ("NULL".data) = some (0, none)
    ∧ UpdatePointerTypeString (0, none) ≠ "NULL".data :=
  pointer_codec_round_trip 9 (some "Widget") (by decide)

/-- Counterexample to C3 as stated: the pair (1, present empty tag) does not
round-trip (the tag comes back absent), and the encoder does not produce the
literal `NULL` for the null pointer with absent tag. -/
theorem pointer_codec_counterexample :
    SetPointerFromAny (UpdatePointerTypeString (1, some ""))
        ≠ some (1, some "")
    ∧ SetPointerFromAny (UpdatePointerTypeString (1, some ""))
        = some (1, none)
    ∧ UpdatePointerTypeString (0, none) ≠ "NULL".data := by
  have hval : SetPointerFromAny (UpdatePointerTypeString (1, some ""))
      = some (1, none) := by
    simp [SetPointerFromAny, UpdatePointerTypeString, TclhPrintAddress,
      toHexChars, hexDigitChar, scanPointer, scanHex, isHexDigitChar, hexVal,
      splitAfterCaret]
  have hnull : UpdatePointerTypeString (0, none) = ['0', 'x', '0', '^'] := by
    simp [UpdatePointerTypeString, TclhPrintAddress, toHexChars, hexDigitChar]
  refine ⟨?_, hval, ?_⟩
  · rw [hval]
    decide
  · rw [hnull]
    decide
